import Mathlib

/-!
# Verification of the recipe-to-document formatter

A shallow embedding of `tools/generate_pdfs.py`: the pure field
formatters (`format_time`, `format_ingredient`, `format_substitution`),
the document renderer (`RecipePDF`) as a state machine emitting a trace
of layout commands, and the batch driver (`main`).

Machine reals are not needed: the layout cursor uses exact rationals
(the source only ever adds literals like `1.5`).  Behavior of library
functions used by the source (Python `str.split`, `str.strip`, `int`,
`str.title`, `str.replace`, `pathlib.Path.stem` / `with_suffix`) is
embedded as structurally recursive functions over character lists so
that every definition evaluates inside the kernel; they are faithful
for the ASCII inputs this repository deals in.
-/

namespace Recipes

/-- Embeds Python `s.split(sep)` for a one-character separator `sep`:
always returns at least one (possibly empty) piece. -/
def pySplit (sep : Char) : List Char → List (List Char)
  | [] => [[]]
  | c :: cs =>
    let r := pySplit sep cs
    if c = sep then [] :: r
    else
      match r with
      | h :: t => (c :: h) :: t
      | [] => [[c]]

/-- `pySplit` lifted to strings. -/
def pySplitStr (sep : Char) (s : String) : List String :=
  (pySplit sep s.toList).map String.mk

/-- Embeds Python `s.strip()` (ASCII whitespace). -/
def pyStrip (s : String) : String :=
  String.mk (((s.toList.dropWhile Char.isWhitespace).reverse.dropWhile Char.isWhitespace).reverse)

/-- Replace every occurrence of character `a` by `b` (enough for the
source's `str.replace("_", " ")`). -/
def pyReplaceChar (a b : Char) (s : String) : String :=
  String.mk (s.toList.map (fun c => if c = a then b else c))

/-- Embeds Python `sep.join(pieces)`. -/
def pyJoin (sep : String) : List String → String
  | [] => ""
  | [p] => p
  | p :: ps => p ++ sep ++ pyJoin sep ps

/-- Embeds Python `str.title()` (ASCII): the first letter of each
alphabetic run is uppercased, the rest lowercased; any non-letter is a
word boundary.  The `prev` flag records whether the previous character
was a letter. -/
def pyTitleGo (prev : Bool) : List Char → List Char
  | [] => []
  | c :: cs =>
    if c.isAlpha then
      (if prev then c.toLower else c.toUpper) :: pyTitleGo true cs
    else
      c :: pyTitleGo false cs

/-- Python `s.title()` over a `String`. -/
def pyTitle (s : String) : String := String.mk (pyTitleGo false s.toList)

/-- Index of the last occurrence of `c` in `cs`, if any. -/
def lastIdxOf (c : Char) (cs : List Char) : Option Nat :=
  (cs.enum.filterMap (fun p => if p.2 = c then some p.1 else none)).getLast?

/-- Embeds Python `pathlib` stem computation on a file *name*: drop the
part from the last dot, provided that dot is neither the first nor the
last character (CPython `PurePath.stem`). -/
def nameStem (nm : String) : String :=
  let cs := nm.toList
  match lastIdxOf '.' cs with
  | some i => if 0 < i ∧ i + 1 < cs.length then String.mk (cs.take i) else nm
  | none => nm

/-- Embeds Python `pathlib.Path(p).name` for normalized relative paths:
the last path segment, ignoring empty and `.` segments. -/
def pathName (p : String) : String :=
  (((pySplitStr '/' p).filter (fun seg => !(seg == "") && !(seg == "."))).getLast?).getD ""

/-- Embeds Python `pathlib.Path(p).stem`. -/
def pathStem (p : String) : String := nameStem (pathName p)

/-- The derived friendly name used for `ref` fields in the source
(`Path(ing["ref"]).stem.replace("_", " ").title()`). -/
def refName (r : String) : String := pyTitle (pyReplaceChar '_' ' ' (pathStem r))

/-- Digit accumulation for the embedding of Python `int(...)`,
including Python's rule for `_` separators: an underscore must sit
between two digits. -/
def parseDigitsGo (acc : Nat) : List Char → Option Nat
  | [] => some acc
  | '_' :: c :: cs =>
    if c.isDigit then parseDigitsGo (acc * 10 + (c.toNat - 48)) cs else none
  | ['_'] => none
  | c :: cs =>
    if c.isDigit then parseDigitsGo (acc * 10 + (c.toNat - 48)) cs else none

/-- A non-empty all-digit (with legal `_` separators) numeral. -/
def parseDigits : List Char → Option Nat
  | [] => none
  | c :: cs => if c.isDigit then parseDigitsGo (c.toNat - 48) cs else none

/-- Embeds Python `int(s)` on ASCII strings: optional surrounding
whitespace, optional sign, then a digit string; `none` models the
`ValueError` raise. -/
def pyInt (s : String) : Option Int :=
  match (pyStrip s).toList with
  | '+' :: cs => (parseDigits cs).map (fun n => (n : Int))
  | '-' :: cs => (parseDigits cs).map (fun n => -(n : Int))
  | cs => (parseDigits cs).map (fun n => (n : Int))

/-- Embeds `rel_path.with_suffix(".pdf")` on a normalized relative path
string: the last segment's stem plus `.pdf`. -/
def withSuffixPdf (rel : String) : String :=
  let parts := pySplitStr '/' rel
  match parts.getLast? with
  | some nm => pyJoin "/" (parts.dropLast ++ [nameStem nm ++ ".pdf"])
  | none => rel

/-- Output path of the batch driver for one input file, relative to the
repository root: `build_dir / rel_path.with_suffix(".pdf")` with
`build_dir = repo_root / "PDF"`. -/
def outputPath (rel : String) : String := "PDF/" ++ withSuffixPdf rel

/-- Embeds `format_time` from the source: split on `:`, parse the first
two segments as Python ints, and render `"{h}h {m}min"` or
`"{m} min"`; on a parse failure (`ValueError`/`IndexError`) return the
input unchanged. -/
def format_time (time_str : String) : String :=
  match pySplitStr ':' time_str with
  | p0 :: p1 :: _ =>
    match pyInt p0, pyInt p1 with
    | some hours, some mins =>
      if hours > 0 then s!"{hours}h {mins}min" else s!"{mins} min"
    | _, _ => time_str
  | _ => time_str

/-- An ingredient mapping that contains an `item` field.  String-valued
fields are carried already stringified (the source applies `str` to
`amount` and `unit`); boolean flags model Python truthiness of the
`optional` and `garnish` fields; `brand` and `ref` are kept as optional
strings, with Python truthiness = present and non-empty. -/
structure Ingredient where
  item : String
  amount : Option String := none
  unit : Option String := none
  amount_alt : Option String := none
  unit_alt : Option String := none
  optional : Bool := false
  brand : Option String := none
  ref : Option String := none
  garnish : Bool := false
deriving DecidableEq

/-- Embeds `format_ingredient` from the source. -/
def format_ingredient (ing : Ingredient) : String :=
  let amount_str := pyStrip (ing.amount.getD "")
  let unit_str := pyStrip (ing.unit.getD "")
  let parts :=
    (if amount_str ≠ "" then [amount_str] else []) ++
    (if unit_str ≠ "" then [unit_str] else []) ++ [ing.item]
  let line := pyJoin " " parts
  let line :=
    match ing.amount_alt, ing.unit_alt with
    | some a, some u => line ++ s!"  ({a} {u})"
    | some a, none => line ++ s!"  ({a})"
    | none, _ => line
  let line := if ing.optional then line ++ "  [optional]" else line
  let line :=
    match ing.brand with
    | some b => if b ≠ "" then line ++ s!"  [Brand: {b}]" else line
    | none => line
  let line :=
    match ing.ref with
    | some r => if r ≠ "" then line ++ s!"  (see: {refName r})" else line
    | none => line
  if ing.garnish then line ++ "  [garnish]" else line

/-- A substitution mapping: an ingredient mapping plus the optional
`replaces` and `for` keys (`for` is a Lean keyword, hence `forTarget`). -/
structure Substitution where
  ing : Ingredient
  replaces : Option String := none
  forTarget : Option String := none
deriving DecidableEq

/-- Embeds `format_substitution` from the source; the Python
`sub.get("replaces") or sub.get("for", "")` takes `replaces` only when
truthy (present and non-empty), else falls through to `for`. -/
def format_substitution (sub : Substitution) : String :=
  let line := format_ingredient sub.ing
  let target :=
    match sub.replaces with
    | some r => if r ≠ "" then r else sub.forTarget.getD ""
    | none => sub.forTarget.getD ""
  if target ≠ "" then line ++ s!"  → replaces {target}" else line

/-! ## Renderer embedding

`RecipePDF` is embedded as a state machine over `St`: a growing trace of
layout commands (`Ev`), the vertical cursor `y`, the resolved font
family, and a line-wrapping oracle `wrap` abstracting the underlying
library's font metrics (`wrap w text` = number of wrapped lines a
`multi_cell` of width `w` produces; every theorem below holds for every
oracle).  Library-driven page furniture (the footer callback, automatic
page breaks inside a cell) does not feed back into any control-flow
decision of the source and is not part of the trace. -/

/-- One layout command sent to the page-accumulation object. -/
inductive Ev
  | aliasNbPages
  | addPage
  | setFont (family style : String) (size : ℚ)
  | setTextColor (r g b : ℕ)
  | setDrawColor (r g b : ℕ)
  | setLineWidth (w : ℚ)
  | setX (x : ℚ)
  | lnE (h : ℚ)
  | lineE (x1 y1 x2 y2 : ℚ)
  | cell (h : ℚ) (text : String) (link : Option String)
  | multiCell (w h : ℚ) (text : String)
deriving DecidableEq

/-- Color constants from the source. -/
def BROWN_DARK : ℕ × ℕ × ℕ := (62, 39, 35)

def BROWN_MED : ℕ × ℕ × ℕ := (93, 64, 55)

def TEXT_COLOR : ℕ × ℕ × ℕ := (33, 33, 33)

def GRAY_ACCENT : ℕ × ℕ × ℕ := (188, 170, 164)

def GRAY_TEXT : ℕ × ℕ × ℕ := (97, 97, 97)

def LINK_COLOR : ℕ × ℕ × ℕ := (0, 0, 180)

/-- A4 page height in layout units (millimetres), the page-layout
library's default page format. -/
def pageHeight : ℚ := 297

/-- Bottom auto-page-break margin, from `set_auto_page_break(margin=15)`
in the source. -/
def bottomMargin : ℚ := 15

/-- Top margin, the page-layout library's default; the cursor lands here
after `add_page` (the source's `header()` is a no-op). -/
def tMargin : ℚ := 10

/-- Renderer state: wrapping oracle, resolved font family, emitted
trace, and vertical cursor. -/
structure St where
  wrap : ℚ → String → ℕ
  font : String
  events : List Ev
  y : ℚ

/-- Append commands to the trace without moving the cursor. -/
def emits (es : List Ev) (st : St) : St := { st with events := st.events ++ es }

/-- `self.ln(h)`. -/
def p_ln (h : ℚ) (st : St) : St :=
  { st with events := st.events ++ [Ev.lnE h], y := st.y + h }

/-- `self.cell(0, h, text, new_x="LMARGIN", new_y="NEXT")` (optionally
with a `link`): emits the cell and moves the cursor below it. -/
def p_cell (h : ℚ) (text : String) (link : Option String) (st : St) : St :=
  { st with events := st.events ++ [Ev.cell h text link], y := st.y + h }

/-- `self.multi_cell(w, h, text, new_x="LMARGIN", new_y="NEXT")`: the
cursor advances by `h` per wrapped line, as told by the oracle. -/
def p_multicell (w h : ℚ) (text : String) (st : St) : St :=
  { st with events := st.events ++ [Ev.multiCell w h text],
            y := st.y + h * (st.wrap w text : ℚ) }

/-- `self.set_font(self._font_name, style, size)`. -/
def p_setFont (style : String) (size : ℚ) (st : St) : St :=
  emits [Ev.setFont st.font style size] st

/-- `self.set_text_color(*c)`. -/
def p_setTextColor (c : ℕ × ℕ × ℕ) (st : St) : St :=
  emits [Ev.setTextColor c.1 c.2.1 c.2.2] st

/-- `self.set_draw_color(*c)`. -/
def p_setDrawColor (c : ℕ × ℕ × ℕ) (st : St) : St :=
  emits [Ev.setDrawColor c.1 c.2.1 c.2.2] st

/-- `self.set_line_width(w)`. -/
def p_setLineWidth (w : ℚ) (st : St) : St := emits [Ev.setLineWidth w] st

/-- `self.set_x(x)`. -/
def p_setX (x : ℚ) (st : St) : St := emits [Ev.setX x] st

/-- `self.line(x1, self.get_y(), x2, self.get_y())`. -/
def p_lineY (x1 x2 : ℚ) (st : St) : St := emits [Ev.lineE x1 st.y x2 st.y] st

/-- `self.add_page()`: the cursor returns to the top margin. -/
def p_addPage (st : St) : St :=
  { st with events := st.events ++ [Ev.addPage], y := tMargin }

/-- `self.alias_nb_pages()`. -/
def alias_nb_pages (st : St) : St := emits [Ev.aliasNbPages] st

/-- Embeds `RecipePDF._bullet_line`. -/
def bullet_line (text : String) (indent : ℚ) (st : St) : St :=
  st |> p_setFont "" 10 |> p_setTextColor TEXT_COLOR |> p_setX (22 + indent)
     |> p_multicell (166 - indent) 5 ("•  " ++ text) |> p_ln 1

/-- Embeds `RecipePDF._numbered_line`. -/
def numbered_line (n : ℕ) (text : String) (indent : ℚ) (st : St) : St :=
  st |> p_setFont "" 10 |> p_setTextColor TEXT_COLOR |> p_setX (22 + indent)
     |> p_multicell (166 - indent) 5 (s!"{n}.  " ++ text) |> p_ln (3 / 2)

/-- Embeds `RecipePDF._section_header`: an explicit page break first
when the cursor is already past 250, then the styled title and rule. -/
def section_header (title : String) (st : St) : St :=
  let st := if st.y > 250 then p_addPage st else st
  st |> p_ln 4 |> p_setFont "B" 13 |> p_setTextColor BROWN_MED
     |> p_cell 8 title none |> p_setDrawColor GRAY_ACCENT |> p_lineY 20 190 |> p_ln 3

/-- A step entry: a plain string, or a mapping rendered through the
`for key, val in step.items()` loop of the source (iteration order =
insertion order, as for a Python dict). -/
inductive Step
  | str (text : String)
  | map (pairs : List (String × String))
deriving DecidableEq

/-- Text a step entry is flattened to before numbering: the loop
`for key, val in step.items(): step = f"{key}: {val}"` keeps only the
last pair; an empty mapping falls through to Python's `str({})`. -/
def stepText : Step → String
  | .str t => t
  | .map pairs =>
    match pairs.getLast? with
    | some kv => s!"{kv.1}: {kv.2}"
    | none => "\x7b\x7d"

/-- `y += f" {yield_unit}"` logic shared by header and component. -/
def yieldLabel (yv : String) (unitOpt : Option String) : String :=
  match unitOpt with
  | some u => yv ++ " " ++ u
  | none => yv

/-- A garnish entry (the source reads `g["item"]`). -/
structure Garnish where
  item : String
deriving DecidableEq

/-- The `source` mapping with its optional `url` / `url2` keys. -/
structure SourceRec where
  url : Option String := none
  url2 : Option String := none
deriving DecidableEq

/-- The `optional` field of a component: `render_component` renders it
only when it is a list (`isinstance(comp["optional"], list)`);
`nonList` stands for any present non-list value, which is skipped. -/
inductive CompOpt
  | lst (items : List Ingredient)
  | nonList
deriving DecidableEq

/-- A component (sub-recipe) mapping.  The source key `yield` is a Lean
keyword-adjacent name, embedded as `yields` (already stringified, the
source applies `str`). -/
structure Component where
  name : String
  yields : Option String := none
  yield_unit : Option String := none
  ingredients : Option (List Ingredient) := none
  steps : Option (List Step) := none
  substitutions : Option (List Substitution) := none
  optional : Option CompOpt := none
deriving DecidableEq

/-- The polymorphic top-level `optional` field: a null, a boolean, a
list of ingredients, or a mapping possibly holding `components` and/or
`ingredients` (plus possibly other keys, which only matter for Python
truthiness of the mapping). -/
inductive OptVal
  | nullv
  | boolv (b : Bool)
  | lst (items : List Ingredient)
  | dict (components : Option (List Component)) (ingredients : Option (List Ingredient))
      (hasOtherKeys : Bool)
deriving DecidableEq

/-- Python truthiness of an `optional` value: `None` and `False` are
falsy, a list is truthy iff non-empty, a dict iff non-empty. -/
def OptVal.truthy : OptVal → Bool
  | .nullv => false
  | .boolv b => b
  | .lst items => !items.isEmpty
  | .dict comps ings other => comps.isSome || ings.isSome || other

/-- A recipe record whose `name` field is present (the batch driver
never renders a record without one).  Scalar-valued display fields are
carried already stringified. -/
structure Recipe where
  name : String
  region : Option String := none
  ethnicity : Option String := none
  restaurant : Option String := none
  category : Option String := none
  prep_time : Option String := none
  cook_time : Option String := none
  yields : Option String := none
  yield_unit : Option String := none
  method : Option String := none
  source : Option SourceRec := none
  components : Option (List Component) := none
  ingredients : Option (List Ingredient) := none
  optional : Option OptVal := none
  steps : Option (List Step) := none
  steps_alt : Option (List Step) := none
  substitutions : Option (List Substitution) := none
  garnishes : Option (List Garnish) := none
  notes : Option (List String) := none
deriving DecidableEq

/-- Embeds `RecipePDF.render_header`. -/
def render_header (data : Recipe) (st : St) : St :=
  let st := st |> p_setFont "B" 24 |> p_setTextColor BROWN_DARK
               |> p_multicell 0 12 data.name
  let st := st |> p_setDrawColor GRAY_ACCENT |> p_setLineWidth (1 / 2)
               |> p_lineY 20 190 |> p_setLineWidth (1 / 5) |> p_ln 4
  let meta_parts :=
    (data.region.map (fun v => s!"Region: {v}")).toList ++
    (data.ethnicity.map (fun v => s!"Ethnicity: {v}")).toList ++
    (data.restaurant.map (fun v => s!"Restaurant: {v}")).toList ++
    (data.category.map (fun v => s!"Category: {v}")).toList
  let st :=
    if meta_parts.isEmpty then st
    else
      st |> p_setFont "" 10 |> p_setTextColor GRAY_TEXT
         |> p_cell 6 (pyJoin " | " meta_parts) none |> p_ln 2
  let time_parts :=
    (data.prep_time.map (fun v => s!"Prep: {format_time v}")).toList ++
    (data.cook_time.map (fun v => s!"Cook: {format_time v}")).toList ++
    (data.yields.map (fun v => s!"Yield: {yieldLabel v data.yield_unit}")).toList ++
    (data.method.map (fun v => s!"Method: {v}")).toList
  let st :=
    if time_parts.isEmpty then st
    else
      st |> p_setFont "" 10 |> p_setTextColor GRAY_TEXT
         |> p_cell 6 (pyJoin " | " time_parts) none |> p_ln 2
  let st :=
    match data.source with
    | none => st
    | some src =>
      let st := st |> p_setFont "" 8 |> p_setTextColor LINK_COLOR
      let st :=
        match src.url with
        | some u => st |> p_cell 5 u (some u) |> p_ln 1
        | none => st
      match src.url2 with
      | some u => st |> p_cell 5 u (some u) |> p_ln 1
      | none => st
  p_ln 4 st

/-- Embeds `RecipePDF.render_ingredients` (a `for` loop of bullets). -/
def render_ingredients (ings : List Ingredient) (indent : ℚ) (st : St) : St :=
  match ings with
  | [] => st
  | ing :: rest => render_ingredients rest indent (bullet_line (format_ingredient ing) indent st)

/-- The `enumerate(steps, 1)` loop of `RecipePDF.render_steps`,
carrying the next index `n`. -/
def render_steps_from (n : ℕ) (steps : List Step) (indent : ℚ) (st : St) : St :=
  match steps with
  | [] => st
  | s :: rest => render_steps_from (n + 1) rest indent (numbered_line n (stepText s) indent st)

/-- Embeds `RecipePDF.render_steps`. -/
def render_steps (steps : List Step) (indent : ℚ) (st : St) : St :=
  render_steps_from 1 steps indent st

/-- The substitution bullet loops (top level with indent 0, inside a
component with indent 10). -/
def render_subs_at (indent : ℚ) (subs : List Substitution) (st : St) : St :=
  match subs with
  | [] => st
  | sub :: rest => render_subs_at indent rest (bullet_line (format_substitution sub) indent st)

/-- Embeds `RecipePDF.render_component`. -/
def render_component (comp : Component) (st : St) : St :=
  let label := comp.name ++
    (match comp.yields with
     | some yv => s!"  (yields {yieldLabel yv comp.yield_unit})"
     | none => "")
  let st := st |> p_setFont "B" 12 |> p_setTextColor BROWN_MED
               |> p_setX 22 |> p_cell 7 ("▸ " ++ label) none |> p_ln 2
  let st :=
    match comp.ingredients with
    | some ings =>
      render_ingredients ings 10
        (st |> p_setFont "" 9 |> p_setTextColor GRAY_TEXT |> p_setX 26
            |> p_cell 5 "Ingredients:" none |> p_ln 1)
    | none => st
  let st :=
    match comp.steps with
    | some ss =>
      render_steps ss 10
        (st |> p_setFont "" 9 |> p_setTextColor GRAY_TEXT |> p_setX 26
            |> p_cell 5 "Steps:" none |> p_ln 1)
    | none => st
  let st :=
    match comp.substitutions with
    | some subs =>
      render_subs_at 10 subs
        (st |> p_setFont "" 9 |> p_setTextColor GRAY_TEXT |> p_setX 26
            |> p_cell 5 "Substitutions:" none |> p_ln 1)
    | none => st
  let st :=
    match comp.optional with
    | some (.lst items) =>
      render_ingredients items 10
        (st |> p_setFont "" 9 |> p_setTextColor GRAY_TEXT |> p_setX 26
            |> p_cell 5 "Optional:" none |> p_ln 1)
    | _ => st
  p_ln 2 st

/-- The `for comp in ...` loop over components. -/
def render_components (comps : List Component) (st : St) : St :=
  match comps with
  | [] => st
  | c :: rest => render_components rest (render_component c st)

/-- Embeds `RecipePDF.render_optional_section`: nothing at all when the
field is absent or falsy; otherwise the `Optional` header followed by
the list or dict contents (components first). -/
def render_optional_section (data : Recipe) (st : St) : St :=
  match data.optional with
  | none => st
  | some opt =>
    if !opt.truthy then st
    else
      let st := section_header "Optional" st
      match opt with
      | .lst items => render_ingredients items 0 st
      | .dict comps ings _ =>
        let st :=
          match comps with
          | some cs => render_components cs st
          | none => st
        (match ings with
         | some l => render_ingredients l 0 st
         | none => st)
      | _ => st

/-- The `for g in data["garnishes"]` loop. -/
def render_garnishes (gs : List Garnish) (st : St) : St :=
  match gs with
  | [] => st
  | g :: rest => render_garnishes rest (bullet_line g.item 0 st)

/-- The `for note in data["notes"]` loop. -/
def render_notes (ns : List String) (st : St) : St :=
  match ns with
  | [] => st
  | n :: rest => render_notes rest (bullet_line n 0 st)

/-- Embeds `RecipePDF.render_recipe`. -/
def render_recipe (data : Recipe) (st : St) : St :=
  let st := alias_nb_pages st
  let st := p_addPage st
  let st := render_header data st
  let st :=
    match data.components with
    | some comps => render_components comps (section_header "Components" st)
    | none => st
  let st :=
    match data.ingredients with
    | some ings => render_ingredients ings 0 (section_header "Ingredients" st)
    | none => st
  let st := render_optional_section data st
  let st :=
    match data.steps with
    | some ss => render_steps ss 0 (section_header "Steps" st)
    | none => st
  let st :=
    match data.steps_alt with
    | some ss => render_steps ss 0 (section_header "Alternative Steps" st)
    | none => st
  let st :=
    match data.substitutions with
    | some subs => render_subs_at 0 subs (section_header "Substitutions" st)
    | none => st
  let st :=
    match data.garnishes with
    | some gs => render_garnishes gs (section_header "Garnishes" st)
    | none => st
  match data.notes with
  | some ns => render_notes ns (section_header "Notes" st)
  | none => st

/-- The fresh renderer state `RecipePDF()` constructed per file by the
batch driver (empty trace, cursor at the top margin). -/
def initSt (wrap : ℚ → String → ℕ) (font : String) : St :=
  { wrap := wrap, font := font, events := [], y := tMargin }

/-- The full document trace produced for one record from a fresh
renderer, given a wrapping oracle and the resolved font family. -/
def renderFull (wrap : ℚ → String → ℕ) (font : String) (data : Recipe) : List Ev :=
  (render_recipe data (initSt wrap font)).events

/-! ## Batch driver embedding

`main` walks the discovered files; per file it loads the YAML, skips
records that are empty or lack `name`, renders, writes the mirrored
output path, and counts successes and errors, catching any per-file
exception.  The load step and the possibility of a render/serialize
exception are modelled abstractly: the driver is parameterized by an
arbitrary `render : Recipe → Except String (List Ev)`. -/

/-- What loading one file yields: a raised parse exception, a falsy
document (`None`/empty, so `not data` holds), or a mapping which may or
may not contain `name`. -/
inductive LoadOutcome
  | raise (msg : String)
  | empty
  | record (hasName : Bool) (data : Recipe)

/-- One discovered input file: its path relative to the repository root
and what loading it yields. -/
structure FileEntry where
  relPath : String
  load : LoadOutcome

/-- Per-file outcome: skipped for a missing `name` (printed as `SKIP`),
errored on a caught exception, or an output document written at a path. -/
inductive FileResult
  | skipped
  | errored (msg : String)
  | ok (outPath : String) (doc : List Ev)
deriving DecidableEq

/-- Did the file produce an output document? -/
def FileResult.isOk : FileResult → Bool
  | .ok _ _ => true
  | _ => false

/-- The document carried by an `ok` result. -/
def FileResult.doc : FileResult → Option (List Ev)
  | .ok _ d => some d
  | _ => none

/-- The part of `main`'s loop body *inside* the `try` block for one
file: load, validate `name`, render, serialize; a raised exception is
caught there and becomes a counted `errored` result.  The
`output_path.parent.mkdir(...)` call precedes the `try` and is modelled
separately in `processFileFull`: its exception is not caught. -/
def processFile (render : Recipe → Except String (List Ev)) (f : FileEntry) : FileResult :=
  match f.load with
  | .raise m => .errored m
  | .empty => .skipped
  | .record hasName data =>
    if !hasName then .skipped
    else
      match render data with
      | .error m => .errored m
      | .ok doc => .ok (outputPath f.relPath) doc

/-- The `for yaml_path in recipe_files` loop, threading the running
`success_count` and `error_count` (a skip counts as an error, exactly
as in the source). -/
def batchGo (render : Recipe → Except String (List Ev)) :
    List FileEntry → ℕ → ℕ → List FileResult × ℕ × ℕ
  | [], s, e => ([], s, e)
  | f :: rest, s, e =>
    let r := processFile render f
    let sNew := if r.isOk then s + 1 else s
    let eNew := if r.isOk then e else e + 1
    let (rs, sEnd, eEnd) := batchGo render rest sNew eNew
    (r :: rs, sEnd, eEnd)

/-- The aggregate outcome of one batch run, `exitCode` being the value
`main` returns to `sys.exit`. -/
structure BatchOutcome where
  results : List FileResult
  successCount : ℕ
  errorCount : ℕ
  exitCode : ℕ
deriving DecidableEq

/-- Embeds `main`: exit 1 when no input files were found; otherwise
process every file and exit 1 iff any error was counted. -/
def runBatch (render : Recipe → Except String (List Ev)) (files : List FileEntry) :
    BatchOutcome :=
  if files.isEmpty then ⟨[], 0, 0, 1⟩
  else
    let t := batchGo render files 0 0
    ⟨t.1, t.2.1, t.2.2, if t.2.2 > 0 then 1 else 0⟩

/-- The concrete per-file pipeline of `main`: a fresh `RecipePDF()` and
`render_recipe`, which in this embedding is total. -/
def pdfRender (wrap : ℚ → String → ℕ) (font : String) : Recipe → Except String (List Ev) :=
  fun data => Except.ok (renderFull wrap font data)

/-- One loop iteration's input including its pre-`try` filesystem step:
`output_path.parent.mkdir(parents=True, exist_ok=True)` runs at the top
of the loop body, *before* the `try`, and can itself raise `OSError`
(e.g. a regular file occupying an output subdirectory path);
`mkdirFault` is `some msg` when it does. -/
structure FileJob where
  entry : FileEntry
  mkdirFault : Option String := none

/-- Embeds the whole loop body of `main` for one file: the mkdir
exception propagates uncaught (`Except.error`); everything inside the
`try` yields a counted `FileResult`. -/
def processFileFull (render : Recipe → Except String (List Ev)) (j : FileJob) :
    Except String FileResult :=
  match j.mkdirFault with
  | some m => Except.error m
  | none => Except.ok (processFile render j.entry)

/-- A batch run that completed normally, or one aborted by an uncaught
exception escaping the loop: the results of the already-processed
prefix are carried for specification purposes, but `main` prints no
summary and returns no exit value on this path (the interpreter dies
with a traceback). -/
inductive BatchRun
  | finished (outcome : BatchOutcome)
  | aborted (results : List FileResult) (msg : String)
deriving DecidableEq

/-- The `for yaml_path in recipe_files` loop over full jobs: an
uncaught mkdir exception aborts the remaining iterations; otherwise the
counts thread exactly as in `batchGo`, and the exit value is computed
from the final error count when the loop completes. -/
def batchGoFull (render : Recipe → Except String (List Ev)) :
    List FileJob → ℕ → ℕ → BatchRun
  | [], s, e => .finished ⟨[], s, e, if e > 0 then 1 else 0⟩
  | j :: rest, s, e =>
    match processFileFull render j with
    | .error m => .aborted [] m
    | .ok r =>
      let sNew := if r.isOk then s + 1 else s
      let eNew := if r.isOk then e else e + 1
      match batchGoFull render rest sNew eNew with
      | .finished o => .finished ⟨r :: o.results, o.successCount, o.errorCount, o.exitCode⟩
      | .aborted rs m => .aborted (r :: rs) m

/-- Embeds `main` including the pre-`try` mkdir of every iteration:
exit 1 when no input files were found; otherwise run the loop, which
either completes with counts and an exit value or is aborted by an
uncaught exception. -/
def runBatchFull (render : Recipe → Except String (List Ev)) (jobs : List FileJob) : BatchRun :=
  if jobs.isEmpty then .finished ⟨[], 0, 0, 1⟩
  else batchGoFull render jobs 0 0

/-! ## Observations on traces -/

/-- The top-level blocks observable in a trace: the record title
(`render_header` is the only place emitting a height-12 multi-cell) and
the section headers (`_section_header` is the only place emitting a
height-8 cell, carrying its title). -/
inductive Tag
  | header
  | sect (title : String)
deriving DecidableEq

/-- Classify one command as a top-level block marker. -/
def tagOf : Ev → Option Tag
  | .multiCell _ h _ => if h = 12 then some Tag.header else none
  | .cell h t _ => if h = 8 then some (Tag.sect t) else none
  | _ => none

/-- The sequence of top-level block markers of a trace. -/
def sectionTrace (es : List Ev) : List Tag := es.filterMap tagOf

/-- Is the `Optional` section emitted for this record?  Present and
Python-truthy (`if not opt: return`). -/
def optionalShown (data : Recipe) : Bool :=
  match data.optional with
  | some opt => opt.truthy
  | none => false

/-- The block markers `render_recipe` emits for a record, in the fixed
source order, each section conditional on its field (and, for
`Optional`, on truthiness). -/
def sectionsOf (data : Recipe) : List Tag :=
  [Tag.header] ++
  (if data.components.isSome then [Tag.sect "Components"] else []) ++
  (if data.ingredients.isSome then [Tag.sect "Ingredients"] else []) ++
  (if optionalShown data then [Tag.sect "Optional"] else []) ++
  (if data.steps.isSome then [Tag.sect "Steps"] else []) ++
  (if data.steps_alt.isSome then [Tag.sect "Alternative Steps"] else []) ++
  (if data.substitutions.isSome then [Tag.sect "Substitutions"] else []) ++
  (if data.garnishes.isSome then [Tag.sect "Garnishes"] else []) ++
  (if data.notes.isSome then [Tag.sect "Notes"] else [])

/-- The block markers claim C1 predicts, word for word: every section
whose field is *present* appears, `Optional` included. -/
def sectionsOfClaimed (data : Recipe) : List Tag :=
  [Tag.header] ++
  (if data.components.isSome then [Tag.sect "Components"] else []) ++
  (if data.ingredients.isSome then [Tag.sect "Ingredients"] else []) ++
  (if data.optional.isSome then [Tag.sect "Optional"] else []) ++
  (if data.steps.isSome then [Tag.sect "Steps"] else []) ++
  (if data.steps_alt.isSome then [Tag.sect "Alternative Steps"] else []) ++
  (if data.substitutions.isSome then [Tag.sect "Substitutions"] else []) ++
  (if data.garnishes.isSome then [Tag.sect "Garnishes"] else []) ++
  (if data.notes.isSome then [Tag.sect "Notes"] else [])

/-- The five commands one numbered step line contributes to the trace. -/
def numberedEvs (font : String) (indent : ℚ) (n : ℕ) (text : String) : List Ev :=
  [Ev.setFont font "" 10, Ev.setTextColor 33 33 33, Ev.setX (22 + indent),
   Ev.multiCell (166 - indent) 5 (s!"{n}.  " ++ text), Ev.lnE (3 / 2)]

/-- The blocks of commands `render_steps` emits for `steps`, numbering
from `n`. -/
def stepsBlocks (font : String) (indent : ℚ) : ℕ → List Step → List Ev
  | _, [] => []
  | n, s :: rest => numberedEvs font indent n (stepText s) ++ stepsBlocks font indent (n + 1) rest

/-- An explicit page break command? -/
def Ev.isPageBreak : Ev → Bool
  | .addPage => true
  | _ => false

/-! ## Spec-side formulations of the formatter claims -/

/-- Alt-quantity clause of the ingredient line (claim C2 item 1). -/
def altClause (ing : Ingredient) : String :=
  match ing.amount_alt, ing.unit_alt with
  | some a, some u => s!"  ({a} {u})"
  | some a, none => s!"  ({a})"
  | none, _ => ""

/-- Brand clause (claim C2: present/truthy). -/
def brandClause (ing : Ingredient) : String :=
  match ing.brand with
  | some b => if b ≠ "" then s!"  [Brand: {b}]" else ""
  | none => ""

/-- Ref clause exactly as claim C2 words it: appended whenever `ref` is
*present*. -/
def seeClauseClaimed (ing : Ingredient) : String :=
  match ing.ref with
  | some r => s!"  (see: {refName r})"
  | none => ""

/-- Ref clause as the code has it: appended when `ref` is present *and
non-empty* (Python truthiness). -/
def seeClause (ing : Ingredient) : String :=
  match ing.ref with
  | some r => if r ≠ "" then s!"  (see: {refName r})" else ""
  | none => ""

/-- The base of the ingredient line: amount (if non-empty after
trimming), unit (likewise), item, joined by single spaces. -/
def ingredientBase (ing : Ingredient) : String :=
  pyJoin " "
    ((if pyStrip (ing.amount.getD "") ≠ "" then [pyStrip (ing.amount.getD "")] else []) ++
     (if pyStrip (ing.unit.getD "") ≠ "" then [pyStrip (ing.unit.getD "")] else []) ++
     [ing.item])

/-- Claim C2 word for word: base, then alt-quantity, `[optional]`,
brand, ref (on mere presence), `[garnish]`, in that order. -/
def format_ingredient_claimed (ing : Ingredient) : String :=
  ingredientBase ing ++ altClause ing ++
  (if ing.optional then "  [optional]" else "") ++ brandClause ing ++
  seeClauseClaimed ing ++ (if ing.garnish then "  [garnish]" else "")

/-- Claim C2 amended only in the ref clause: appended when `ref` is
present and non-empty. -/
def format_ingredient_spec (ing : Ingredient) : String :=
  ingredientBase ing ++ altClause ing ++
  (if ing.optional then "  [optional]" else "") ++ brandClause ing ++
  seeClause ing ++ (if ing.garnish then "  [garnish]" else "")

/-- The replacement target as claim C4 words it: the `replaces` value
whenever present, else the `for` value, else empty. -/
def subTargetClaimed (sub : Substitution) : String :=
  match sub.replaces with
  | some r => r
  | none => sub.forTarget.getD ""

/-- The replacement target as the code computes it
(`sub.get("replaces") or sub.get("for", "")`): `replaces` only when
present and non-empty, else the `for` value, else empty. -/
def subTarget (sub : Substitution) : String :=
  match sub.replaces with
  | some r => if r ≠ "" then r else sub.forTarget.getD ""
  | none => sub.forTarget.getD ""

/-- Claim C4 word for word. -/
def format_substitution_claimed (sub : Substitution) : String :=
  format_ingredient sub.ing ++
  (if subTargetClaimed sub ≠ "" then s!"  → replaces {subTargetClaimed sub}" else "")

/-- Claim C4 amended only in the target priority: an empty `replaces`
falls through to `for`. -/
def format_substitution_spec (sub : Substitution) : String :=
  format_ingredient sub.ing ++
  (if subTarget sub ≠ "" then s!"  → replaces {subTarget sub}" else "")

/-! ## Concrete instances used in closed statements -/

/-- A minimal wrapping oracle: every multi-cell occupies one line. -/
def wrap1 : ℚ → String → ℕ := fun _ _ => 1

/-- A fresh renderer state with the fallback font. -/
def st0 : St := initSt wrap1 "Helvetica"

/-- A minimal valid record. -/
def recMin : Recipe := { name := "X" }

/-- A record whose `optional` field is present but an empty list
(Python-falsy). -/
def recOptEmpty : Recipe :=
  { name := "R", optional := some (OptVal.lst []),
    steps := some [Step.str "stir"], notes := some ["note"] }

/-- A record with only `notes` and `steps` (plus the mandatory name). -/
def recNotesSteps : Recipe :=
  { name := "R", steps := some [Step.str "stir"], notes := some ["note"] }

/-- An ingredient whose `ref` is present but empty. -/
def ingRefEmpty : Ingredient := { item := "x", ref := some "" }

/-- A substitution with an empty `replaces` and a non-empty `for`. -/
def subRepEmpty : Substitution :=
  { ing := { item := "a" }, replaces := some "", forTarget := some "x" }

/-- A degenerate abstract renderer producing an empty document. -/
def render0 : Recipe → Except String (List Ev) := fun _ => Except.ok []

/-- A valid input file. -/
def fileA : FileEntry := { relPath := "a/b.yaml", load := LoadOutcome.record true recMin }

/-- An input file whose record is empty. -/
def fileC : FileEntry := { relPath := "c.yaml", load := LoadOutcome.empty }

/-- A two-file batch: one valid record, one empty file. -/
def filesC6 : List FileEntry := [fileA, fileC]

/-- The valid file as a job whose mkdir succeeds. -/
def jobA0 : FileJob := { entry := fileA }

/-- The empty file as a job whose mkdir succeeds. -/
def jobC0 : FileJob := { entry := fileC }

/-- The two-file batch with no mkdir faults. -/
def jobsOk : List FileJob := [jobA0, jobC0]

/-- A job whose pre-`try` mkdir raises an `OSError`. -/
def jobBad : FileJob := { entry := fileC, mkdirFault := some "OSError" }

/-- A three-file batch whose second file's mkdir raises: one valid
file, the faulting file, and another valid file never reached. -/
def jobsCE : List FileJob := [jobA0, jobBad, jobA0]

/-- Two input files carrying the same record at different paths. -/
def file8a : FileEntry := { relPath := "a.yaml", load := LoadOutcome.record true recMin }

/-- Second carrier of the same record. -/
def file8b : FileEntry := { relPath := "b/c.yaml", load := LoadOutcome.record true recMin }

/-- The batch holding the same record twice. -/
def files8 : List FileEntry := [file8a, file8b]

/-! ## Trace lemmas -/

@[simp]
lemma sectionTrace_nil : sectionTrace [] = [] := rfl

@[simp]
lemma sectionTrace_append (a b : List Ev) :
    sectionTrace (a ++ b) = sectionTrace a ++ sectionTrace b := by
  simp [sectionTrace]

@[simp]
lemma sectionTrace_single (e : Ev) : sectionTrace [e] = (tagOf e).toList := by
  cases h : tagOf e <;> simp [sectionTrace, h]

@[simp]
lemma tagOf_aliasNbPages : tagOf Ev.aliasNbPages = none := rfl

@[simp]
lemma tagOf_addPage : tagOf Ev.addPage = none := rfl

@[simp]
lemma tagOf_setFont (f s : String) (z : ℚ) : tagOf (Ev.setFont f s z) = none := rfl

@[simp]
lemma tagOf_setTextColor (r g b : ℕ) : tagOf (Ev.setTextColor r g b) = none := rfl

@[simp]
lemma tagOf_setDrawColor (r g b : ℕ) : tagOf (Ev.setDrawColor r g b) = none := rfl

@[simp]
lemma tagOf_setLineWidth (w : ℚ) : tagOf (Ev.setLineWidth w) = none := rfl

@[simp]
lemma tagOf_setX (x : ℚ) : tagOf (Ev.setX x) = none := rfl

@[simp]
lemma tagOf_lnE (h : ℚ) : tagOf (Ev.lnE h) = none := rfl

@[simp]
lemma tagOf_lineE (a b c d : ℚ) : tagOf (Ev.lineE a b c d) = none := rfl

@[simp]
lemma tagOf_cell5 (t : String) (l : Option String) : tagOf (Ev.cell 5 t l) = none := by
  simp only [tagOf]
  norm_num

@[simp]
lemma tagOf_cell6 (t : String) (l : Option String) : tagOf (Ev.cell 6 t l) = none := by
  simp only [tagOf]
  norm_num

@[simp]
lemma tagOf_cell7 (t : String) (l : Option String) : tagOf (Ev.cell 7 t l) = none := by
  simp only [tagOf]
  norm_num

@[simp]
lemma tagOf_cell8 (t : String) (l : Option String) :
    tagOf (Ev.cell 8 t l) = some (Tag.sect t) := by
  simp [tagOf]

@[simp]
lemma tagOf_multiCell5 (w : ℚ) (t : String) : tagOf (Ev.multiCell w 5 t) = none := by
  simp only [tagOf]
  norm_num

@[simp]
lemma tagOf_multiCell12 (w : ℚ) (t : String) :
    tagOf (Ev.multiCell w 12 t) = some Tag.header := by
  simp [tagOf]

@[simp]
lemma sectionTrace_cons (e : Ev) (l : List Ev) :
    sectionTrace (e :: l) = (tagOf e).toList ++ sectionTrace l := by
  cases h : tagOf e <;> simp [sectionTrace, h]

@[simp]
lemma sectionTrace_ite (c : Prop) [Decidable c] (a b : St) :
    sectionTrace (if c then a else b).events =
      if c then sectionTrace a.events else sectionTrace b.events := by
  split <;> rfl

@[simp]
lemma sectionTrace_p_ln (h : ℚ) (st : St) :
    sectionTrace (p_ln h st).events = sectionTrace st.events := by
  simp [p_ln]

@[simp]
lemma sectionTrace_p_setFont (s : String) (z : ℚ) (st : St) :
    sectionTrace (p_setFont s z st).events = sectionTrace st.events := by
  simp [p_setFont, emits]

@[simp]
lemma sectionTrace_p_setTextColor (c : ℕ × ℕ × ℕ) (st : St) :
    sectionTrace (p_setTextColor c st).events = sectionTrace st.events := by
  simp [p_setTextColor, emits]

@[simp]
lemma sectionTrace_p_setDrawColor (c : ℕ × ℕ × ℕ) (st : St) :
    sectionTrace (p_setDrawColor c st).events = sectionTrace st.events := by
  simp [p_setDrawColor, emits]

@[simp]
lemma sectionTrace_p_setLineWidth (w : ℚ) (st : St) :
    sectionTrace (p_setLineWidth w st).events = sectionTrace st.events := by
  simp [p_setLineWidth, emits]

@[simp]
lemma sectionTrace_p_setX (x : ℚ) (st : St) :
    sectionTrace (p_setX x st).events = sectionTrace st.events := by
  simp [p_setX, emits]

@[simp]
lemma sectionTrace_p_lineY (x1 x2 : ℚ) (st : St) :
    sectionTrace (p_lineY x1 x2 st).events = sectionTrace st.events := by
  simp [p_lineY, emits]

@[simp]
lemma sectionTrace_p_addPage (st : St) :
    sectionTrace (p_addPage st).events = sectionTrace st.events := by
  simp [p_addPage]

@[simp]
lemma sectionTrace_alias_nb_pages (st : St) :
    sectionTrace (alias_nb_pages st).events = sectionTrace st.events := by
  simp [alias_nb_pages, emits]

@[simp]
lemma sectionTrace_p_cell5 (t : String) (l : Option String) (st : St) :
    sectionTrace (p_cell 5 t l st).events = sectionTrace st.events := by
  simp [p_cell]

@[simp]
lemma sectionTrace_p_cell6 (t : String) (l : Option String) (st : St) :
    sectionTrace (p_cell 6 t l st).events = sectionTrace st.events := by
  simp [p_cell]

@[simp]
lemma sectionTrace_p_cell7 (t : String) (l : Option String) (st : St) :
    sectionTrace (p_cell 7 t l st).events = sectionTrace st.events := by
  simp [p_cell]

@[simp]
lemma sectionTrace_p_cell8 (t : String) (l : Option String) (st : St) :
    sectionTrace (p_cell 8 t l st).events = sectionTrace st.events ++ [Tag.sect t] := by
  simp [p_cell]

@[simp]
lemma sectionTrace_p_multicell5 (w : ℚ) (t : String) (st : St) :
    sectionTrace (p_multicell w 5 t st).events = sectionTrace st.events := by
  simp [p_multicell]

@[simp]
lemma sectionTrace_p_multicell12 (w : ℚ) (t : String) (st : St) :
    sectionTrace (p_multicell w 12 t st).events = sectionTrace st.events ++ [Tag.header] := by
  simp [p_multicell]

@[simp]
lemma bullet_line_font (t : String) (i : ℚ) (st : St) : (bullet_line t i st).font = st.font := rfl

@[simp]
lemma bullet_line_wrap (t : String) (i : ℚ) (st : St) : (bullet_line t i st).wrap = st.wrap := rfl

@[simp]
lemma numbered_line_font (n : ℕ) (t : String) (i : ℚ) (st : St) :
    (numbered_line n t i st).font = st.font := rfl

@[simp]
lemma numbered_line_wrap (n : ℕ) (t : String) (i : ℚ) (st : St) :
    (numbered_line n t i st).wrap = st.wrap := rfl

@[simp]
lemma numbered_line_events (n : ℕ) (t : String) (i : ℚ) (st : St) :
    (numbered_line n t i st).events = st.events ++ numberedEvs st.font i n t := by
  simp [numbered_line, numberedEvs, p_setFont, p_setTextColor, p_setX, p_multicell, p_ln,
    emits, TEXT_COLOR]

@[simp]
lemma sectionTrace_bullet_line (t : String) (i : ℚ) (st : St) :
    sectionTrace (bullet_line t i st).events = sectionTrace st.events := by
  simp [bullet_line]

@[simp]
lemma sectionTrace_numberedEvs (f : String) (i : ℚ) (n : ℕ) (t : String) :
    sectionTrace (numberedEvs f i n t) = [] := by
  simp [numberedEvs]

@[simp]
lemma sectionTrace_numbered_line (n : ℕ) (t : String) (i : ℚ) (st : St) :
    sectionTrace (numbered_line n t i st).events = sectionTrace st.events := by
  simp

@[simp]
lemma sectionTrace_section_header (title : String) (st : St) :
    sectionTrace (section_header title st).events = sectionTrace st.events ++ [Tag.sect title] := by
  by_cases h : st.y > 250 <;> simp [section_header, h]

@[simp]
lemma sectionTrace_render_header (data : Recipe) (st : St) :
    sectionTrace (render_header data st).events = sectionTrace st.events ++ [Tag.header] := by
  rcases hs : data.source with _ | ⟨u, u2⟩
  · simp [render_header, hs]
  · rcases u with _ | u <;> rcases u2 with _ | u2 <;> simp [render_header, hs]

@[simp]
lemma sectionTrace_render_ingredients (ings : List Ingredient) (i : ℚ) (st : St) :
    sectionTrace (render_ingredients ings i st).events = sectionTrace st.events := by
  induction ings generalizing st with
  | nil => simp [render_ingredients]
  | cons ing rest ih => simp [render_ingredients, ih]

@[simp]
lemma sectionTrace_render_steps_from (steps : List Step) (n : ℕ) (i : ℚ) (st : St) :
    sectionTrace (render_steps_from n steps i st).events = sectionTrace st.events := by
  induction steps generalizing n st with
  | nil => simp [render_steps_from]
  | cons s rest ih => simp [render_steps_from, ih]

@[simp]
lemma sectionTrace_render_steps (steps : List Step) (i : ℚ) (st : St) :
    sectionTrace (render_steps steps i st).events = sectionTrace st.events := by
  simp [render_steps]

@[simp]
lemma sectionTrace_render_subs_at (i : ℚ) (subs : List Substitution) (st : St) :
    sectionTrace (render_subs_at i subs st).events = sectionTrace st.events := by
  induction subs generalizing st with
  | nil => simp [render_subs_at]
  | cons sub rest ih => simp [render_subs_at, ih]

@[simp]
lemma sectionTrace_render_garnishes (gs : List Garnish) (st : St) :
    sectionTrace (render_garnishes gs st).events = sectionTrace st.events := by
  induction gs generalizing st with
  | nil => simp [render_garnishes]
  | cons g rest ih => simp [render_garnishes, ih]

@[simp]
lemma sectionTrace_render_notes (ns : List String) (st : St) :
    sectionTrace (render_notes ns st).events = sectionTrace st.events := by
  induction ns generalizing st with
  | nil => simp [render_notes]
  | cons n rest ih => simp [render_notes, ih]

@[simp]
lemma sectionTrace_render_component (comp : Component) (st : St) :
    sectionTrace (render_component comp st).events = sectionTrace st.events := by
  rcases comp with ⟨nm, yv, yu, ings, ss, subs, opt⟩
  rcases ings with _ | ings <;> rcases ss with _ | ss <;> rcases subs with _ | subs <;>
    rcases opt with _ | (items | _) <;> simp [render_component]

@[simp]
lemma sectionTrace_render_components (comps : List Component) (st : St) :
    sectionTrace (render_components comps st).events = sectionTrace st.events := by
  induction comps generalizing st with
  | nil => simp [render_components]
  | cons c rest ih => simp [render_components, ih]

@[simp]
lemma sectionTrace_render_optional_section (data : Recipe) (st : St) :
    sectionTrace (render_optional_section data st).events =
      sectionTrace st.events ++ (if optionalShown data then [Tag.sect "Optional"] else []) := by
  rcases ho : data.optional with _ | v
  · simp [render_optional_section, optionalShown, ho]
  · rcases v with _ | b | items | ⟨comps, ings, other⟩
    · simp [render_optional_section, optionalShown, ho, OptVal.truthy]
    · cases b <;> simp [render_optional_section, optionalShown, ho, OptVal.truthy]
    · cases items <;> simp [render_optional_section, optionalShown, ho, OptVal.truthy]
    · rcases comps with _ | cs <;> rcases ings with _ | l <;> cases other <;>
        simp [render_optional_section, optionalShown, ho, OptVal.truthy]

lemma sectionTrace_render_recipe (data : Recipe) (st : St) :
    sectionTrace (render_recipe data st).events = sectionTrace st.events ++ sectionsOf data := by
  rcases data with ⟨nm, reg, eth, res, cat, pt, ct, yv, yu, me, src, comps, ings, opt, ss, sa, subs, gs, ns⟩
  rcases comps with _ | comps <;> rcases ings with _ | ings <;> rcases ss with _ | ss <;>
    rcases sa with _ | sa <;> rcases subs with _ | subs <;> rcases gs with _ | gs <;>
    rcases ns with _ | ns <;>
    simp [render_recipe, sectionsOf]

lemma render_steps_from_events (steps : List Step) (n : ℕ) (indent : ℚ) (st : St) :
    (render_steps_from n steps indent st).events =
      st.events ++ ((List.enumFrom n steps).map
        (fun p => numberedEvs st.font indent p.1 (stepText p.2))).flatten := by
  induction steps generalizing n st with
  | nil => simp [render_steps_from]
  | cons s rest ih => simp [render_steps_from, ih]

lemma render_steps_events (steps : List Step) (indent : ℚ) (st : St) :
    (render_steps steps indent st).events =
      st.events ++ ((List.enumFrom 1 steps).map
        (fun p => numberedEvs st.font indent p.1 (stepText p.2))).flatten := by
  simp [render_steps, render_steps_from_events]

/-! ## Batch driver lemmas -/

lemma batchGo_results (render : Recipe → Except String (List Ev)) (files : List FileEntry)
    (s e : ℕ) : (batchGo render files s e).1 = files.map (processFile render) := by
  induction files generalizing s e with
  | nil => simp [batchGo]
  | cons f rest ih => simp [batchGo, ih]

lemma batchGo_errors (render : Recipe → Except String (List Ev)) (files : List FileEntry)
    (s e : ℕ) :
    (batchGo render files s e).2.2 =
      e + (files.map (processFile render)).countP (fun r => !r.isOk) := by
  induction files generalizing s e with
  | nil => simp [batchGo]
  | cons f rest ih =>
    by_cases h : (processFile render f).isOk <;>
      (simp [batchGo, ih, h, List.countP_cons]; try omega)

lemma batchGo_successes (render : Recipe → Except String (List Ev)) (files : List FileEntry)
    (s e : ℕ) :
    (batchGo render files s e).2.1 =
      s + (files.map (processFile render)).countP FileResult.isOk := by
  induction files generalizing s e with
  | nil => simp [batchGo]
  | cons f rest ih =>
    by_cases h : (processFile render f).isOk <;>
      (simp [batchGo, ih, h, List.countP_cons]; try omega)

lemma runBatch_results (render : Recipe → Except String (List Ev)) (files : List FileEntry)
    (h : files ≠ []) :
    (runBatch render files).results = files.map (processFile render) := by
  simp [runBatch, h, batchGo_results]

lemma runBatch_counts (render : Recipe → Except String (List Ev)) (files : List FileEntry) :
    (runBatch render files).errorCount =
      (runBatch render files).results.countP (fun r => !r.isOk) ∧
    (runBatch render files).successCount =
      (runBatch render files).results.countP FileResult.isOk := by
  by_cases h : files.isEmpty
  · simp [runBatch, h]
  · simp [runBatch, h, batchGo_results, batchGo_errors, batchGo_successes]

lemma batchGo_cons (render : Recipe → Except String (List Ev)) (f : FileEntry)
    (l : List FileEntry) (s e : ℕ) :
    batchGo render (f :: l) s e =
      (processFile render f ::
        (batchGo render l (if (processFile render f).isOk then s + 1 else s)
          (if (processFile render f).isOk then e else e + 1)).1,
       (batchGo render l (if (processFile render f).isOk then s + 1 else s)
          (if (processFile render f).isOk then e else e + 1)).2.1,
       (batchGo render l (if (processFile render f).isOk then s + 1 else s)
          (if (processFile render f).isOk then e else e + 1)).2.2) := by
  rcases hb : batchGo render l (if (processFile render f).isOk then s + 1 else s)
      (if (processFile render f).isOk then e else e + 1) with ⟨rs, sE, eE⟩
  simp [batchGo, hb]

lemma batchGoFull_cons (render : Recipe → Except String (List Ev)) (j : FileJob)
    (rest : List FileJob) (s e : ℕ) (hj : j.mkdirFault = none) :
    batchGoFull render (j :: rest) s e =
      match batchGoFull render rest (if (processFile render j.entry).isOk then s + 1 else s)
          (if (processFile render j.entry).isOk then e else e + 1) with
      | .finished o =>
        .finished ⟨processFile render j.entry :: o.results, o.successCount, o.errorCount,
          o.exitCode⟩
      | .aborted rs m => .aborted (processFile render j.entry :: rs) m := by
  simp [batchGoFull, processFileFull, hj]

lemma batchGoFull_no_fault (render : Recipe → Except String (List Ev)) (jobs : List FileJob)
    (s e : ℕ) (h : ∀ j ∈ jobs, j.mkdirFault = none) :
    batchGoFull render jobs s e =
      .finished ⟨(batchGo render (jobs.map FileJob.entry) s e).1,
                 (batchGo render (jobs.map FileJob.entry) s e).2.1,
                 (batchGo render (jobs.map FileJob.entry) s e).2.2,
                 if (batchGo render (jobs.map FileJob.entry) s e).2.2 > 0 then 1 else 0⟩ := by
  induction jobs generalizing s e with
  | nil => simp [batchGoFull, batchGo]
  | cons j rest ih =>
    have hj : j.mkdirFault = none := h j (by simp)
    have hrest : ∀ x ∈ rest, x.mkdirFault = none := fun x hx => h x (by simp [hx])
    rw [List.map_cons, batchGo_cons, batchGoFull_cons render j rest s e hj, ih _ _ hrest]

lemma batchGoFull_aborts (render : Recipe → Except String (List Ev)) (pre : List FileJob)
    (j : FileJob) (post : List FileJob) (m : String)
    (hpre : ∀ x ∈ pre, x.mkdirFault = none) (hj : j.mkdirFault = some m) (s e : ℕ) :
    batchGoFull render (pre ++ j :: post) s e =
      .aborted ((pre.map FileJob.entry).map (processFile render)) m := by
  induction pre generalizing s e with
  | nil => simp [batchGoFull, processFileFull, hj]
  | cons p rest ih =>
    have hp : p.mkdirFault = none := hpre p (by simp)
    have hr : ∀ x ∈ rest, x.mkdirFault = none := fun x hx => hpre x (by simp [hx])
    simp [batchGoFull, processFileFull, hp, ih hr]

lemma runBatchFull_no_fault (render : Recipe → Except String (List Ev)) (jobs : List FileJob)
    (h : ∀ j ∈ jobs, j.mkdirFault = none) :
    runBatchFull render jobs = .finished (runBatch render (jobs.map FileJob.entry)) := by
  by_cases hj : jobs.isEmpty
  · have : jobs = [] := by simpa [List.isEmpty_iff] using hj
    subst this
    simp [runBatchFull, runBatch]
  · have hje : (jobs.map FileJob.entry).isEmpty = false := by
      cases jobs with
      | nil => simp at hj
      | cons a l => simp
    simp [runBatchFull, hj, runBatch, hje, batchGoFull_no_fault render jobs 0 0 h]

lemma append_ite (s a : String) (c : Prop) [Decidable c] :
    (if c then s ++ a else s) = s ++ (if c then a else "") := by
  split_ifs <;> simp [String.append_empty]

lemma format_ingredient_eq_spec (ing : Ingredient) :
    format_ingredient ing = format_ingredient_spec ing := by
  rcases ing with ⟨item, am, un, aa, ua, opt, br, ref, gar⟩
  rcases aa with _ | a <;> rcases ua with _ | u <;> rcases br with _ | b <;>
    rcases ref with _ | r <;>
    simp only [format_ingredient, format_ingredient_spec, ingredientBase, altClause,
      brandClause, seeClause, append_ite, String.append_empty]

lemma format_substitution_eq_spec (sub : Substitution) :
    format_substitution sub = format_substitution_spec sub := by
  rcases sub with ⟨ing, rep, ft⟩
  rcases rep with _ | r <;>
    simp only [format_substitution, format_substitution_spec, subTarget, append_ite]

/-! ## Claim theorems -/

/-- Claim C2, corrected at one point: at the concrete ingredient
`{item: "x", ref: ""}` (ref present but empty) the code appends no
`(see: …)` clause, while the claim as stated (`if ref is present`)
demands one. -/
theorem C2_counterexample :
    ingRefEmpty.ref.isSome = true ∧
    format_ingredient ingRefEmpty ≠ format_ingredient_claimed ingRefEmpty ∧
    format_ingredient ingRefEmpty = "x" ∧
    format_ingredient_claimed ingRefEmpty = "x  (see: )" := by
  refine ⟨rfl, ?_, ?_, ?_⟩ <;> decide

/-- Claim C2 (amended): the ingredient line is the concatenation of
amount (if non-empty after trimming), unit (likewise), item, then in
fixed order the alt-quantity clause, `[optional]`, `[Brand: …]`,
`(see: …)` — the last only when `ref` is present *and non-empty* — and
`[garnish]`; including the claim's concrete examples. -/
theorem C2_ingredient_line (ing : Ingredient) :
    format_ingredient ing = format_ingredient_spec ing ∧
    format_ingredient { item := "flour", amount := some "2", unit := some "cups" } =
      "2 cups flour" ∧
    format_ingredient
        { item := "flour", amount := some "2", unit := some "cups", optional := true } =
      "2 cups flour  [optional]" ∧
    format_ingredient
        { item := "flour", amount := some "2", unit := some "cups",
          ref := some "sauces/base_sauce.yaml" } =
      "2 cups flour  (see: Base Sauce)" :=
  ⟨format_ingredient_eq_spec ing, by decide, by decide, by decide⟩

/-- Claim C3: when the first two colon-delimited segments of the input
parse as Python ints the formatter renders `"{h}h {m}min"` for positive
hours and `"{m} min"` otherwise; when parsing raises (either segment
fails to parse, or there is no second segment) the input is returned
unchanged.  The embedding is a total function, so the formatter never
raises. -/
theorem C3_format_time (s : String) :
    (∀ p0 p1 rest h m, pySplitStr ':' s = p0 :: p1 :: rest →
        pyInt p0 = some h → pyInt p1 = some m →
        format_time s = if h > 0 then s!"{h}h {m}min" else s!"{m} min") ∧
    (∀ p0 p1 rest, pySplitStr ':' s = p0 :: p1 :: rest →
        pyInt p0 = none ∨ pyInt p1 = none → format_time s = s) ∧
    ((pySplitStr ':' s).length < 2 → format_time s = s) := by
  refine ⟨?_, ?_, ?_⟩
  · intro p0 p1 rest h m hsplit h0 h1
    simp [format_time, hsplit, h0, h1]
  · intro p0 p1 rest hsplit hor
    rcases hor with h0 | h1
    · simp [format_time, hsplit, h0]
    · cases hp : pyInt p0 <;> simp [format_time, hsplit, hp, h1]
  · intro hlen
    rcases hsp : pySplitStr ':' s with _ | ⟨a, _ | ⟨b, t⟩⟩
    · simp [format_time, hsp]
    · simp [format_time, hsp]
    · rw [hsp] at hlen
      simp at hlen
      omega

/-- Witness for C3 at the claim's concrete inputs. -/
theorem C3_format_time_witness :
    format_time "00:30:00" = "30 min" ∧ format_time "01:15:00" = "1h 15min" ∧
    format_time "abc" = "abc" := by
  refine ⟨?_, ?_, ?_⟩
  · exact ((C3_format_time "00:30:00").1 "00" "30" ["00"] 0 30 (by decide) (by decide)
      (by decide)).trans (by decide)
  · exact ((C3_format_time "01:15:00").1 "01" "15" ["00"] 1 15 (by decide) (by decide)
      (by decide)).trans (by decide)
  · exact (C3_format_time "abc").2.2 (by decide)

/-- Claim C4, corrected at one point: at the concrete substitution
`{item: "a", replaces: "", for: "x"}` (both keys present, `replaces`
empty) the code appends `→ replaces x` — an empty `replaces` falls
through to `for` — while the claim as stated (`replaces` wins whenever
both are present) predicts no appended clause. -/
theorem C4_counterexample :
    subRepEmpty.replaces.isSome = true ∧ subRepEmpty.forTarget.isSome = true ∧
    format_substitution subRepEmpty ≠ format_substitution_claimed subRepEmpty ∧
    format_substitution subRepEmpty = "a  → replaces x" ∧
    format_substitution_claimed subRepEmpty = "a" := by
  refine ⟨rfl, rfl, ?_, ?_, ?_⟩ <;> decide

/-- Claim C4 (amended): the substitution line is the ingredient line of
the substitution's own fields, followed by `"  → replaces {target}"`
where target is `replaces` when present *and non-empty*, else `for`
when present, else empty; nothing is appended for an empty target;
including the claim's concrete example. -/
theorem C4_substitution_line (sub : Substitution) :
    format_substitution sub = format_substitution_spec sub ∧
    format_substitution { ing := { item := "oat milk" }, replaces := some "whole milk" } =
      "oat milk  → replaces whole milk" :=
  ⟨format_substitution_eq_spec sub, by decide⟩

/-- Claim C5: `render_steps` emits exactly one numbered line per step,
the index starting at 1 and incrementing by 1 in sequence order, each
displayed as `"{n}.  {text}"` (the text of the `multi_cell` in
`numberedEvs`), and a single-key mapping is flattened to
`"{key}: {value}"` before numbering. -/
theorem C5_steps_numbering (steps : List Step) (indent : ℚ) (st : St) :
    (render_steps steps indent st).events =
      st.events ++ ((List.enumFrom 1 steps).map
        (fun p => numberedEvs st.font indent p.1 (stepText p.2))).flatten ∧
    (∀ k v, stepText (Step.map [(k, v)]) = s!"{k}: {v}") :=
  ⟨render_steps_events steps indent st, fun _ _ => rfl⟩

/-- Claim C10: a step entry that is a mapping with at least two keys
still contributes exactly one numbered block, whose text comes from the
*last* key-value pair in iteration order; the earlier pairs are
discarded. -/
theorem C10_multikey_step (st : St) (indent : ℚ) (steps : List Step)
    (pairs : List (String × String)) (k v : String)
    (_h2 : 2 ≤ pairs.length) (h3 : pairs.getLast? = some (k, v)) :
    stepText (Step.map pairs) = s!"{k}: {v}" ∧
    (render_steps steps indent st).events =
      st.events ++ ((List.enumFrom 1 steps).map
        (fun p => numberedEvs st.font indent p.1 (stepText p.2))).flatten := by
  refine ⟨?_, render_steps_events steps indent st⟩
  simp [stepText, h3]

/-- Witness for C10 at a concrete two-key mapping. -/
theorem C10_multikey_step_witness :
    stepText (Step.map [("a", "1"), ("b", "2")]) = "b: 2" ∧
    (render_steps [Step.map [("a", "1"), ("b", "2")]] 0 st0).events =
      st0.events ++ ((List.enumFrom 1 [Step.map [("a", "1"), ("b", "2")]]).map
        (fun p => numberedEvs st0.font 0 p.1 (stepText p.2))).flatten :=
  C10_multikey_step st0 0 [Step.map [("a", "1"), ("b", "2")]] [("a", "1"), ("b", "2")] "b" "2"
    (by decide) (by decide)

/-- Claim C1, corrected at one point: at the concrete record
`recOptEmpty` — whose `optional` field is present but an empty list —
no `Optional` section is emitted, while the claim as stated (each
section rendered iff its field is present) predicts one. -/
theorem C1_counterexample :
    recOptEmpty.optional.isSome = true ∧
    sectionTrace (renderFull wrap1 "Helvetica" recOptEmpty) ≠ sectionsOfClaimed recOptEmpty := by
  refine ⟨rfl, ?_⟩
  unfold renderFull
  rw [sectionTrace_render_recipe]
  decide

/-- Claim C1 (amended): for every record and renderer state the
top-level blocks appear in the fixed order Header, Components,
Ingredients, Optional, Steps, Alternative Steps, Substitutions,
Garnishes, Notes, each present section rendered and each absent section
skipped — except that Optional additionally requires a truthy value.
The record is a field map, so the order cannot depend on input field
order; in particular a record with only `notes` and `steps` emits Steps
before Notes. -/
theorem C1_section_order (data : Recipe) (st : St) :
    sectionTrace (render_recipe data st).events = sectionTrace st.events ++ sectionsOf data ∧
    sectionTrace (renderFull wrap1 "Helvetica" recNotesSteps) =
      [Tag.header, Tag.sect "Steps", Tag.sect "Notes"] := by
  refine ⟨sectionTrace_render_recipe data st, ?_⟩
  unfold renderFull
  rw [sectionTrace_render_recipe]
  decide

/-- Claim C7: for every cursor position, the section-header operation
emits an explicit page break, before the header, iff the cursor is
already past 250 (the look-ahead guard `if self.get_y() > 250`);
otherwise its emitted commands contain no page break at all. -/
theorem C7_section_header_break (title : String) (st : St) :
    (((section_header title st).events.drop st.events.length).countP Ev.isPageBreak
        = if st.y > 250 then 1 else 0) ∧
    (((section_header title st).events.drop st.events.length).head? = some Ev.addPage ↔
        st.y > 250) := by
  by_cases h : st.y > 250 <;>
    simp [section_header, h, p_addPage, p_ln, p_setFont, p_setTextColor, p_cell,
      p_setDrawColor, p_lineY, emits, BROWN_MED, GRAY_ACCENT, Ev.isPageBreak]

/-- Claim C9: a present-but-falsy `optional` field (empty list, empty
mapping, false, or null) makes the optional-section renderer emit
nothing at all — the state is returned unchanged — and the `Optional`
section header appears iff the field is present and truthy. -/
theorem C9_optional_falsy (data : Recipe) (st : St) (v : OptVal) :
    (data.optional = some v → v.truthy = false → render_optional_section data st = st) ∧
    sectionTrace (render_optional_section data st).events =
      sectionTrace st.events ++ (if optionalShown data then [Tag.sect "Optional"] else []) := by
  refine ⟨?_, sectionTrace_render_optional_section data st⟩
  intro hv ht
  simp [render_optional_section, hv, ht]

/-- Witness for C9 at a record whose `optional` is an empty list. -/
theorem C9_optional_falsy_witness :
    render_optional_section recOptEmpty st0 = st0 ∧
    sectionTrace (render_optional_section recOptEmpty st0).events =
      sectionTrace st0.events ++ (if optionalShown recOptEmpty then [Tag.sect "Optional"] else []) :=
  ⟨(C9_optional_falsy recOptEmpty st0 (OptVal.lst [])).1 rfl rfl,
   (C9_optional_falsy recOptEmpty st0 (OptVal.lst [])).2⟩

/-- Claim C6, corrected: the second file's pre-`try` mkdir raises, and
the batch is aborted uncaught — only the first file's result exists,
the third file is never processed, the exception is not counted, and no
summary/exit value is produced — refuting "any per-file exception is
caught, counted as an error, and processing continues with the next
file" as stated. -/
theorem C6_counterexample :
    runBatchFull render0 jobsCE = BatchRun.aborted [FileResult.ok "PDF/a/b.pdf" []] "OSError" ∧
    jobsCE.length = 3 ∧
    (∀ o : BatchOutcome, runBatchFull render0 jobsCE ≠ BatchRun.finished o) := by
  have h1 : runBatchFull render0 jobsCE =
      BatchRun.aborted [FileResult.ok "PDF/a/b.pdf" []] "OSError" := by decide
  refine ⟨h1, rfl, ?_⟩
  intro o h
  rw [h1] at h
  simp at h

/-- Claim C6 (amended): in every batch run whose per-file mkdir steps
all succeed, each discovered file yields exactly one result (processing
always continues); an empty or name-less record is skipped and never
yields an output; an exception raised inside the per-file `try` (load,
validation, render, serialization) is caught and counted as an error;
a record with `name` whose rendering succeeds yields exactly one output
document at the mirrored relative path under `PDF/` with the `.pdf`
extension; the error count counts exactly the non-output results and
the success count the outputs; and the exit status is non-zero iff an
error occurred or no input file was found.  However the
output-directory mkdir runs *before* the `try`, so a mkdir exception
aborts the whole batch uncaught after the preceding files' results. -/
theorem C6_batch_driver (render : Recipe → Except String (List Ev)) (jobs : List FileJob)
    (files : List FileEntry) :
    ((∀ j ∈ jobs, j.mkdirFault = none) →
        runBatchFull render jobs =
          BatchRun.finished (runBatch render (jobs.map FileJob.entry))) ∧
    (∀ pre jBad post m, jobs = pre ++ jBad :: post →
        (∀ x ∈ pre, x.mkdirFault = none) → jBad.mkdirFault = some m →
        runBatchFull render jobs =
          BatchRun.aborted ((pre.map FileJob.entry).map (processFile render)) m) ∧
    ((runBatch render files).results.length = files.length) ∧
    (∀ (i : ℕ) (f : FileEntry), files[i]? = some f →
      ((f.load = LoadOutcome.empty →
          (runBatch render files).results[i]? = some FileResult.skipped) ∧
       (∀ d, f.load = LoadOutcome.record false d →
          (runBatch render files).results[i]? = some FileResult.skipped) ∧
       (∀ m, f.load = LoadOutcome.raise m →
          (runBatch render files).results[i]? = some (FileResult.errored m)) ∧
       (∀ d doc, f.load = LoadOutcome.record true d → render d = Except.ok doc →
          (runBatch render files).results[i]? =
            some (FileResult.ok (outputPath f.relPath) doc)) ∧
       (∀ d m, f.load = LoadOutcome.record true d → render d = Except.error m →
          (runBatch render files).results[i]? = some (FileResult.errored m)))) ∧
    ((runBatch render files).errorCount =
        (runBatch render files).results.countP (fun r => !r.isOk)) ∧
    ((runBatch render files).successCount =
        (runBatch render files).results.countP FileResult.isOk) ∧
    ((runBatch render files).exitCode ≠ 0 ↔
        0 < (runBatch render files).errorCount ∨ files = []) := by
  refine ⟨runBatchFull_no_fault render jobs, ?_, ?_⟩
  · intro pre jBad post m hjobs hpre hjm
    subst hjobs
    have hne : (pre ++ jBad :: post).isEmpty = false := by
      cases pre <;> simp
    simp [runBatchFull, hne, batchGoFull_aborts render pre jBad post m hpre hjm 0 0]
  by_cases hf : files = []
  · subst hf
    refine ⟨by simp [runBatch], ?_, by simp [runBatch], by simp [runBatch], by simp [runBatch]⟩
    intro i f hif
    simp at hif
  · have hr := runBatch_results render files hf
    have hc := runBatch_counts render files
    have hni : files.isEmpty = false := by simpa [List.isEmpty_iff] using hf
    refine ⟨by rw [hr]; simp, ?_, hc.1, hc.2, ?_⟩
    · intro i f hif
      have hi : (runBatch render files).results[i]? = some (processFile render f) := by
        rw [hr, List.getElem?_map, hif]
        rfl
      refine ⟨?_, ?_, ?_, ?_, ?_⟩
      · intro hl
        rw [hi]
        simp [processFile, hl]
      · intro d hl
        rw [hi]
        simp [processFile, hl]
      · intro m hl
        rw [hi]
        simp [processFile, hl]
      · intro d doc hl hrd
        rw [hi]
        simp [processFile, hl, hrd]
      · intro d m hl hrd
        rw [hi]
        simp [processFile, hl, hrd]
    · simp only [runBatch, hni, Bool.false_eq_true, if_false, hf, or_false]
      by_cases he : 0 < (batchGo render files 0 0).2.2 <;> simp [he]

/-- Witness for C6: a fault-free two-file batch completes with the
valid record's mirrored output `PDF/a/b.pdf` and the empty file
skipped, the exit status non-zero iff an error was counted; and a batch
whose second file's mkdir raises is aborted after the first file's
result. -/
theorem C6_batch_driver_witness :
    runBatchFull render0 jobsOk = BatchRun.finished (runBatch render0 filesC6) ∧
    runBatchFull render0 jobsCE = BatchRun.aborted [FileResult.ok "PDF/a/b.pdf" []] "OSError" ∧
    (runBatch render0 filesC6).results[0]? = some (FileResult.ok "PDF/a/b.pdf" []) ∧
    (runBatch render0 filesC6).results[1]? = some FileResult.skipped ∧
    ((runBatch render0 filesC6).exitCode ≠ 0 ↔
      0 < (runBatch render0 filesC6).errorCount ∨ filesC6 = []) := by
  have h := C6_batch_driver render0 jobsOk filesC6
  have hce := C6_batch_driver render0 jobsCE filesC6
  refine ⟨h.1 (by decide), ?_, ?_, ?_, h.2.2.2.2.2.2⟩
  · exact hce.2.1 [jobA0] jobBad [jobA0] "OSError" rfl (by decide) rfl
  · exact (h.2.2.2.1 0 fileA rfl).2.2.2.1 recMin [] rfl rfl
  · exact (h.2.2.2.1 1 fileC rfl).1 rfl

/-- Claim C8: with the concrete renderer, the output document for a
record with `name` is a function of that record (and the fixed font
resolution and wrapping oracle) alone — independent of the file's
position in the batch and of every other file — so rendering the same
record twice produces identical documents. -/
theorem C8_render_deterministic (wrap : ℚ → String → ℕ) (font : String)
    (files : List FileEntry) (i j : ℕ) (fi fj : FileEntry) (d : Recipe)
    (hi : files[i]? = some fi) (hj : files[j]? = some fj)
    (hfi : fi.load = LoadOutcome.record true d) (hfj : fj.load = LoadOutcome.record true d) :
    (((runBatch (pdfRender wrap font) files).results[i]?).bind FileResult.doc =
        some (renderFull wrap font d)) ∧
    (((runBatch (pdfRender wrap font) files).results[j]?).bind FileResult.doc =
        ((runBatch (pdfRender wrap font) files).results[i]?).bind FileResult.doc) := by
  have hne : files ≠ [] := by
    intro h
    subst h
    simp at hi
  have hr := runBatch_results (pdfRender wrap font) files hne
  have hri : (runBatch (pdfRender wrap font) files).results[i]? =
      some (processFile (pdfRender wrap font) fi) := by
    rw [hr, List.getElem?_map, hi]
    rfl
  have hrj : (runBatch (pdfRender wrap font) files).results[j]? =
      some (processFile (pdfRender wrap font) fj) := by
    rw [hr, List.getElem?_map, hj]
    rfl
  rw [hri, hrj]
  simp [processFile, hfi, hfj, pdfRender, FileResult.doc]

/-- Witness for C8: the same record at two different batch positions
yields the very same document bytes. -/
theorem C8_render_deterministic_witness :
    (((runBatch (pdfRender wrap1 "Helvetica") files8).results[0]?).bind FileResult.doc =
        some (renderFull wrap1 "Helvetica" recMin)) ∧
    (((runBatch (pdfRender wrap1 "Helvetica") files8).results[1]?).bind FileResult.doc =
        ((runBatch (pdfRender wrap1 "Helvetica") files8).results[0]?).bind FileResult.doc) :=
  C8_render_deterministic wrap1 "Helvetica" files8 0 1 file8a file8b recMin rfl rfl rfl rfl

end Recipes
